import Mathlib

/-!
Verification development for the 10-K analysis service (`buffett_app.py`).

The file shallowly embeds the pure core of the program:

* a small backtracking matcher for the fragment of Python's `re` used by the
  five section patterns (case-insensitive literals, `\s+`, `[.\s]+`, `|`),
  together with `re.search` / `re.finditer` style drivers;
* `extract_sections`, the section extractor;
* the truncation step of `analyze_with_gemini`;
* the combined-section synthesis and the request pipeline of `analyze_10k`,
  with the effectful stages (HTTP fetches, the generative oracle) passed in
  as function parameters and the set of invoked stages returned as a trace;
* `get_latest_10k_url`, the filing locator, over the already-fetched
  parallel arrays.

Machine text is modelled as `List Char`; ASCII whitespace (the six characters
matched by Python's `\s` on ASCII text) models `\s` and `str.strip`.
-/

/-- The six ASCII whitespace characters: this is exactly what Python's regex
class `\s` matches on ASCII text, and what `str.strip()` removes from ASCII
text. -/
def wsChars : List Char := [' ', '\t', '\n', '\r', '\x0b', '\x0c']

/-- Python `str.isspace` for the ASCII characters we model. -/
def isPySpace (c : Char) : Bool := wsChars.contains c

/-- Python `str.strip()`: drop whitespace from both ends. -/
def pyStrip (s : List Char) : List Char :=
  ((s.dropWhile isPySpace).reverse.dropWhile isPySpace).reverse

/-- Python `str.lower()` (ASCII). -/
def pyLower (s : String) : String := String.mk (s.toList.map Char.toLower)

/-- Helper for `pyTitle`: the boolean records whether the previous character
was alphabetic (Python: "cased"). -/
def pyTitleGo : List Char → Bool → List Char
  | [], _ => []
  | c :: rest, prevAlpha =>
    (if c.isAlpha then (if prevAlpha then c.toLower else c.toUpper) else c) ::
      pyTitleGo rest c.isAlpha

/-- Python `str.title()` (ASCII): uppercase every letter that follows a
non-letter, lowercase the other letters.  Note `"management's".title()` is
`"Management'S"`: the apostrophe is not a letter. -/
def pyTitle (s : List Char) : List Char := pyTitleGo s false

/-- Python dict assignment `d[k] = v` on an insertion-ordered association
list: replace in place if the key exists, else append. -/
def dictInsert : List (String × List Char) → String → List Char → List (String × List Char)
  | [], k, v => [(k, v)]
  | (k', v') :: rest, k, v =>
    if k' = k then (k', v) :: rest else (k', v') :: dictInsert rest k v

/-- Python truthiness of an optional string (`if not x:` treats both `None`
and `""` as failure). -/
def truthy (o : Option String) : Option String :=
  match o with
  | some s => if s = "" then none else some s
  | none => none

/-- One token of the regex fragment used by the section patterns: a
case-insensitive literal character, or a character class applied one-or-more
times (`\s+`, `[.\s]+`) -- greedy with backtracking, as in Python `re`. -/
inductive Tok where
  | lit : Char → Tok
  | cls : List Char → Tok
deriving DecidableEq

/-- A pattern of the fragment: an ordered alternation (`|`) of token
sequences.  The first alternative that matches wins, as in Python `re`. -/
abbrev Regex := List (List Tok)

/-- Literal tokens for a (lowercase) string: `re.IGNORECASE` is modelled by
keeping pattern literals lowercase and lowering input characters. -/
def lits (s : String) : List Tok := s.toList.map Tok.lit

/-- Backtracking matcher for one token sequence at the head of the input.
Returns the number of characters consumed by the match `re` would produce
(greedy `+`, backtracking longest-first).  The fuel argument only forces
structural recursion; `matchSeq` supplies enough fuel. -/
def mseq : Nat → List Tok → List Char → Option Nat
  | 0, _, _ => none
  | _ + 1, [], _ => some 0
  | _ + 1, Tok.lit _ :: _, [] => none
  | fuel + 1, Tok.lit c :: ts, d :: rest =>
    if d.toLower = c then (mseq fuel ts rest).map (fun n => n + 1) else none
  | _ + 1, Tok.cls _ :: _, [] => none
  | fuel + 1, Tok.cls cs :: ts, d :: rest =>
    if cs.contains d.toLower then
      match mseq fuel (Tok.cls cs :: ts) rest with
      | some n => some (n + 1)
      | none => (mseq fuel ts rest).map (fun n => n + 1)
    else none

/-- Match one token sequence at the head of the input. -/
def matchSeq (ts : List Tok) (s : List Char) : Option Nat :=
  mseq (ts.length + s.length + 1) ts s

/-- Match a pattern at the head of the input: first alternative wins. -/
def matchAlt (r : Regex) (s : List Char) : Option Nat :=
  r.findSome? (fun alt => matchSeq alt s)

/-- Scan positions `i, i+1, ...` for the first one where the pattern matches;
return (start, end) absolute offsets.  This is `re.search` on `s[i:]` shifted
to absolute offsets. -/
def searchFrom : Nat → Regex → List Char → Nat → Option (Nat × Nat)
  | 0, _, _, _ => none
  | fuel + 1, r, s, i =>
    match matchAlt r (s.drop i) with
    | some n => some (i, i + n)
    | none => if s.length ≤ i then none else searchFrom fuel r s (i + 1)

/-- Python `re.search`: offsets of the first match, or `none`. -/
def reSearch (r : Regex) (s : List Char) : Option (Nat × Nat) :=
  searchFrom (s.length + 1) r s 0

/-- Worker for `findIter`: repeatedly search from `pos`, continuing after the
end of each match (bumping by one on an empty match), exactly as
`re.finditer` does. -/
def findIterAux : Nat → Regex → List Char → Nat → List (Nat × Nat)
  | 0, _, _, _ => []
  | fuel + 1, r, s, pos =>
    match searchFrom (s.length + 1 - pos) r s pos with
    | none => []
    | some (j, e) => (j, e) :: findIterAux fuel r s (if j < e then e else j + 1)

/-- Python `list(re.finditer(pattern, s))`: the (start, end) offsets of all
non-overlapping matches, left to right. -/
def findIter (r : Regex) (s : List Char) : List (Nat × Nat) :=
  findIterAux (s.length + 1) r s 0

/-- The class `[.\s]`. -/
def dotWs : List Char := '.' :: wsChars

/-- Start pattern `item\s+1[.\s]+business`. -/
def busStart : Regex :=
  [lits "item" ++ [Tok.cls wsChars] ++ lits "1" ++ [Tok.cls dotWs] ++ lits "business"]

/-- End pattern `item\s+1a`. -/
def busEnd : Regex := [lits "item" ++ [Tok.cls wsChars] ++ lits "1a"]

/-- Start pattern `item\s+1a[.\s]+risk\s+factors`. -/
def riskStart : Regex :=
  [lits "item" ++ [Tok.cls wsChars] ++ lits "1a" ++ [Tok.cls dotWs] ++ lits "risk" ++
    [Tok.cls wsChars] ++ lits "factors"]

/-- End pattern `item\s+1b`. -/
def riskEnd : Regex := [lits "item" ++ [Tok.cls wsChars] ++ lits "1b"]

/-- Start pattern `item\s+7[.\s]+management|item\s+7[.\s]+md&a`. -/
def mdaStart : Regex :=
  [lits "item" ++ [Tok.cls wsChars] ++ lits "7" ++ [Tok.cls dotWs] ++ lits "management",
   lits "item" ++ [Tok.cls wsChars] ++ lits "7" ++ [Tok.cls dotWs] ++ lits "md&a"]

/-- End pattern `item\s+7a|item\s+8`. -/
def mdaEnd : Regex :=
  [lits "item" ++ [Tok.cls wsChars] ++ lits "7a",
   lits "item" ++ [Tok.cls wsChars] ++ lits "8"]

/-- Start pattern `item\s+7a[.\s]+quantitative`. -/
def quantStart : Regex :=
  [lits "item" ++ [Tok.cls wsChars] ++ lits "7a" ++ [Tok.cls dotWs] ++ lits "quantitative"]

/-- End pattern `item\s+8`. -/
def quantEnd : Regex := [lits "item" ++ [Tok.cls wsChars] ++ lits "8"]

/-- Start pattern `item\s+8[.\s]+financial`. -/
def finStart : Regex :=
  [lits "item" ++ [Tok.cls wsChars] ++ lits "8" ++ [Tok.cls dotWs] ++ lits "financial"]

/-- End pattern `item\s+9`. -/
def finEnd : Regex := [lits "item" ++ [Tok.cls wsChars] ++ lits "9"]

/-- The static list of (start pattern, canonical name, end pattern) triples
from `extract_sections`. -/
def patterns : List (Regex × String × Regex) :=
  [(busStart, "Business", busEnd),
   (riskStart, "Risk Factors", riskEnd),
   (mdaStart, "Management's Discussion and Analysis", mdaEnd),
   (quantStart, "Quantitative and Qualitative Disclosures", quantEnd),
   (finStart, "Financial Statements", finEnd)]

/-- The boundary computation of one loop iteration of `extract_sections`:
start of the last `finditer` match of the start pattern, and the first
`re.search` match of the end pattern inside `text[start:]` (falling back to
the end of the document). -/
def sectionSpan (startPat endPat : Regex) (text : List Char) : Option (Nat × Nat) :=
  match (findIter startPat text).getLast? with
  | none => none
  | some m =>
    some (m.1,
      match reSearch endPat (text.drop m.1) with
      | some em => m.1 + em.1
      | none => text.length)

/-- One loop iteration of `extract_sections`: `text[start:end].strip()`, or
`none` when the start pattern never matches. -/
def sectionResult (startPat endPat : Regex) (text : List Char) : Option (List Char) :=
  (sectionSpan startPat endPat text).map
    (fun se => pyStrip ((text.drop se.1).take (se.2 - se.1)))

/-- The entry one loop iteration of `extract_sections` contributes for a
pattern triple: the canonical name paired with the extracted text, if any. -/
def entryOf (text : List Char) (sp : Regex × String × Regex) :
    Option (String × List Char) :=
  (sectionResult sp.1 sp.2.2 text).map (fun v => (sp.2.1, v))

/-- The loop of `extract_sections` over an arbitrary pattern list: sections
whose start pattern never matches are skipped (`continue`). -/
def extractGo (ps : List (Regex × String × Regex)) (text : List Char) :
    List (String × List Char) :=
  ps.filterMap (entryOf text)

/-- `extract_sections`: canonical section name to extracted text, in pattern
order. -/
def extract_sections (text : String) : List (String × List Char) :=
  extractGo patterns text.toList

/-- `MAX_TEXT_LENGTH` from `analyze_with_gemini`. -/
def MAX_TEXT_LENGTH : Nat := 100000

/-- The appended truncation note
`f"\n\n[Text truncated - original length: {n} characters]"`. -/
def truncMarker (n : Nat) : List Char :=
  "\n\n[Text truncated - original length: ".toList ++ (Nat.repr n).toList ++
    " characters]".toList

/-- The truncation step of `analyze_with_gemini`: keep the first
`MAX_TEXT_LENGTH` characters and append the truncation note when the input
was actually longer. -/
def truncateSection (s : List Char) : List Char :=
  if MAX_TEXT_LENGTH < s.length then s.take MAX_TEXT_LENGTH ++ truncMarker s.length
  else s.take MAX_TEXT_LENGTH

/-- `combined_order` from `analyze_10k`. -/
def combined_order : List String :=
  ["business", "risk factors", "management's discussion and analysis"]

/-- `combined_parts` from `analyze_10k`: for each key of `combined_order`
present in the normalized sections, the title-cased header followed by a
blank line and the section text. -/
def combined_parts (normalized : List (String × List Char)) : List (List Char) :=
  combined_order.filterMap (fun key =>
    (List.lookup key normalized).map (fun v => pyTitle key.toList ++ ('\n' :: '\n' :: v)))

/-- The combined section synthesized by `analyze_10k`:
`"\n\n".join(combined_parts)` when any part exists, nothing otherwise. -/
def combined_text (normalized : List (String × List Char)) : Option (List Char) :=
  match combined_parts normalized with
  | [] => none
  | p :: ps => some (List.intercalate ['\n', '\n'] (p :: ps))

/-- The loop of `get_latest_10k_url`: index of the first form equal to
`"10-K"` (the accumulator mirrors `enumerate`). -/
def firstFormIdx : List String → Nat → Option Nat
  | [], _ => none
  | f :: rest, i => if f = "10-K" then some i else firstFormIdx rest (i + 1)

/-- Python `int()` on a nonnegative decimal string (the only shape a filer
identifier takes): the parsed number, or `none` when `int` would raise. -/
def pyInt? (s : String) : Option Nat :=
  if s.toList ≠ [] ∧ s.toList.all (fun c => c.isDigit) then
    some (s.toList.foldl (fun n c => n * 10 + (c.toNat - '0'.toNat)) 0)
  else none

/-- `get_latest_10k_url` over the already-fetched parallel arrays of the
submissions JSON: build the archive URL from the first index whose form type
is `"10-K"`.  `int(cik)` is modelled by `pyInt?`; a failed parse or an
out-of-range index raises in Python and is caught, yielding `None`. -/
def get_latest_10k_url (cik : String) (form accessionNumber primaryDocument : List String) :
    Option String :=
  match firstFormIdx form 0 with
  | none => none
  | some i =>
    match pyInt? cik, accessionNumber.get? i, primaryDocument.get? i with
    | some n, some accession, some primary_doc =>
      some ("https://www.sec.gov/Archives/edgar/data/" ++ Nat.repr n ++ "/" ++
        String.mk (accession.toList.filter (fun c => c ≠ '-')) ++ "/" ++ primary_doc)
    | _, _, _ => none

/-- The pipeline stages of the `/analyze/10k/<ticker>/<section>` route that
perform outward calls. -/
inductive Stage where
  | cik | url | fetch | gemini
deriving DecidableEq

/-- A JSON response body of the route: an error object or a success object
with keys ticker, section, summary. -/
inductive Body where
  | error : String → Body
  | success : String → String → String → Body
deriving DecidableEq

/-- The `analyze_10k` route.  The four effectful stages (`get_cik`,
`get_latest_10k_url`, `fetch_10k_text`, `analyze_with_gemini`) are passed as
functions returning `none` on failure (`None` return or a caught exception);
the result pairs the HTTP (status, body) with the list of stages that were
invoked.  `truthy` models the `if not x:` checks. -/
def analyze_10k (get_cik : String → Option String)
    (get_latest : String → Option String)
    (fetch_10k : String → Option String)
    (gemini : String → List Char → Option String)
    (ticker sectionName : String) : (Nat × Body) × List Stage :=
  match truthy (get_cik ticker) with
  | none => ((404, Body.error "Ticker not found"), [Stage.cik])
  | some cik =>
    match truthy (get_latest cik) with
    | none => ((404, Body.error "No 10-K found"), [Stage.cik, Stage.url])
    | some url =>
      match truthy (fetch_10k url) with
      | none => ((500, Body.error "Failed to fetch 10-K content"),
          [Stage.cik, Stage.url, Stage.fetch])
      | some text =>
        let normalized := (extract_sections text).map (fun p => (pyLower p.1, p.2))
        let normalized2 :=
          match combined_text normalized with
          | some joined => dictInsert normalized "combined" joined
          | none => normalized
        match List.lookup (pyLower sectionName) normalized2 with
        | none => ((404, Body.error ("Section " ++ sectionName ++ " not found")),
            [Stage.cik, Stage.url, Stage.fetch])
        | some sectext =>
          match gemini sectionName sectext with
          | none => ((500, Body.error "Internal server error"),
              [Stage.cik, Stage.url, Stage.fetch, Stage.gemini])
          | some summary =>
            if summary = "" then
              ((500, Body.error "Failed to generate summary"),
                [Stage.cik, Stage.url, Stage.fetch, Stage.gemini])
            else
              ((200, Body.success ticker sectionName summary),
                [Stage.cik, Stage.url, Stage.fetch, Stage.gemini])

/-- The pattern triples with names lowered, matching the keys of
`normalized_sections` in `analyze_10k`. -/
def patternsLower : List (Regex × String × Regex) :=
  patterns.map (fun sp => (sp.1, pyLower sp.2.1, sp.2.2))

/-- A successful `searchFrom` result lies at or after the scan start, inside
the text, and is a real match. -/
theorem searchFrom_some {r : Regex} {s : List Char} {fuel i j je : Nat}
    (h : searchFrom fuel r s i = some (j, je)) (hb : fuel + i ≤ s.length + 1) :
    i ≤ j ∧ j ≤ s.length ∧ matchAlt r (s.drop j) = some (je - j) := by
  induction fuel generalizing i with
  | zero => simp [searchFrom] at h
  | succ fuel ih =>
    simp only [searchFrom] at h
    split at h
    next n hm =>
      injection h with h'
      injection h' with h1 h2
      subst h1; subst h2
      refine ⟨Nat.le_refl _, by omega, ?_⟩
      rw [show i + n - i = n by omega]
      exact hm
    next hm =>
      split at h
      · simp at h
      · obtain ⟨h1, h2, h3⟩ := ih h (by omega)
        exact ⟨by omega, h2, h3⟩

/-- Every element of the `finditer` list is a real match inside the text. -/
theorem findIterAux_mem {r : Regex} {s : List Char} {fuel pos j je : Nat}
    (h : (j, je) ∈ findIterAux fuel r s pos) :
    j ≤ s.length ∧ matchAlt r (s.drop j) = some (je - j) := by
  induction fuel generalizing pos with
  | zero => simp [findIterAux] at h
  | succ fuel ih =>
    simp only [findIterAux] at h
    by_cases hpos : pos ≤ s.length + 1
    · cases hs : searchFrom (s.length + 1 - pos) r s pos with
      | none => rw [hs] at h; simp at h
      | some p =>
        obtain ⟨a, b⟩ := p
        rw [hs] at h
        rcases List.mem_cons.mp h with heq | hmem
        · obtain ⟨h1, h2, h3⟩ := searchFrom_some hs (by omega)
          injection heq with ha hb'
          subst ha; subst hb'
          exact ⟨h2, h3⟩
        · exact ih hmem
    · rw [show s.length + 1 - pos = 0 by omega] at h
      simp [searchFrom] at h

/-- Every entry of the extraction loop comes from one of the pattern triples,
with its name and its own `sectionResult`. -/
theorem mem_extractGo {ps : List (Regex × String × Regex)} {t : List Char}
    {k : String} {v : List Char} (h : (k, v) ∈ extractGo ps t) :
    ∃ sp, sp ∈ ps ∧ sp.2.1 = k ∧ sectionResult sp.1 sp.2.2 t = some v := by
  unfold extractGo at h
  rw [List.mem_filterMap] at h
  obtain ⟨sp, hmem, hf⟩ := h
  unfold entryOf at hf
  rw [Option.map_eq_some'] at hf
  obtain ⟨v', hres, hpair⟩ := hf
  injection hpair with hk hv
  exact ⟨sp, hmem, hk, by rw [hres, hv]⟩

/-- Looking up a name that no pattern declares yields nothing. -/
theorem lookup_extractGo_absent {ps : List (Regex × String × Regex)} {t : List Char}
    {k : String} (h : ∀ sp ∈ ps, sp.2.1 ≠ k) :
    List.lookup k (extractGo ps t) = none := by
  induction ps with
  | nil => rfl
  | cons q rest ih =>
    have hq : q.2.1 ≠ k := h q (List.mem_cons_self q rest)
    have hrest : ∀ sp ∈ rest, sp.2.1 ≠ k := fun sp hs => h sp (List.mem_cons_of_mem q hs)
    have hbeq : (k == q.2.1) = false := beq_eq_false_iff_ne.mpr (Ne.symm hq)
    unfold extractGo
    cases hres : sectionResult q.1 q.2.2 t with
    | none =>
      have hfq : entryOf t q = none := by simp [entryOf, hres]
      rw [List.filterMap_cons_none hfq]
      exact ih hrest
    | some v =>
      have hfq : entryOf t q = some (q.2.1, v) := by simp [entryOf, hres]
      rw [List.filterMap_cons_some hfq]
      simp only [List.lookup_cons, hbeq]
      exact ih hrest

/-- With pairwise-distinct section names, the lookup of a pattern's name in
the extraction output is exactly that pattern's own `sectionResult`: the
sections are extracted independently of each other. -/
theorem lookup_extractGo_mem {ps : List (Regex × String × Regex)} {t : List Char}
    {sp : Regex × String × Regex} (hm : sp ∈ ps)
    (hnd : (ps.map (fun x => x.2.1)).Nodup) :
    List.lookup sp.2.1 (extractGo ps t) = sectionResult sp.1 sp.2.2 t := by
  induction ps with
  | nil => cases hm
  | cons q rest ih =>
    rw [List.map_cons, List.nodup_cons] at hnd
    obtain ⟨hq, hnd'⟩ := hnd
    rcases List.mem_cons.mp hm with rfl | hm'
    · unfold extractGo
      cases hres : sectionResult sp.1 sp.2.2 t with
      | some v =>
        have hfq : entryOf t sp = some (sp.2.1, v) := by simp [entryOf, hres]
        rw [List.filterMap_cons_some hfq]
        simp [List.lookup_cons]
      | none =>
        have hfq : entryOf t sp = none := by simp [entryOf, hres]
        rw [List.filterMap_cons_none hfq]
        exact lookup_extractGo_absent
          (fun x hx heq => hq (heq ▸ List.mem_map_of_mem (fun y => y.2.1) hx))
    · have hne : (sp.2.1 == q.2.1) = false :=
        beq_eq_false_iff_ne.mpr
          (fun heq => hq (heq ▸ List.mem_map_of_mem (fun y => y.2.1) hm'))
      unfold extractGo
      cases hres : sectionResult q.1 q.2.2 t with
      | none =>
        have hfq : entryOf t q = none := by simp [entryOf, hres]
        rw [List.filterMap_cons_none hfq]
        exact ih hm' hnd'
      | some v =>
        have hfq : entryOf t q = some (q.2.1, v) := by simp [entryOf, hres]
        rw [List.filterMap_cons_some hfq]
        simp only [List.lookup_cons, hne]
        exact ih hm' hnd'

/-- Lowering the keys of the extraction output is the same as extracting with
lowered pattern names. -/
theorem map_lower_extractGo (ps : List (Regex × String × Regex)) (t : List Char) :
    (extractGo ps t).map (fun p => (pyLower p.1, p.2)) =
      extractGo (ps.map (fun sp => (sp.1, pyLower sp.2.1, sp.2.2))) t := by
  induction ps with
  | nil => rfl
  | cons q rest ih =>
    unfold extractGo
    simp only [List.map_cons]
    cases hres : sectionResult q.1 q.2.2 t with
    | none =>
      have hfq : entryOf t q = none := by simp [entryOf, hres]
      have hfq' : entryOf t (q.1, pyLower q.2.1, q.2.2) = none := by simp [entryOf, hres]
      rw [List.filterMap_cons_none hfq, List.filterMap_cons_none hfq']
      exact ih
    | some v =>
      have hfq : entryOf t q = some (q.2.1, v) := by simp [entryOf, hres]
      have hfq' : entryOf t (q.1, pyLower q.2.1, q.2.2) = some (pyLower q.2.1, v) := by
        simp [entryOf, hres]
      rw [List.filterMap_cons_some hfq, List.filterMap_cons_some hfq']
      rw [List.map_cons]
      exact congrArg _ ih

/-- C1: for every input text in which a section's start pattern has at least
one `finditer` occurrence and its end pattern occurs at or after the last
such occurrence, `extract_sections` maps the section's canonical name to the
whitespace-trimmed substring of the input running from the offset of the last
start occurrence to the offset of the first end-pattern occurrence at or
after that start. -/
theorem C1_extract_last_start_first_end (text : String)
    (sp : Regex × String × Regex) (hsp : sp ∈ patterns)
    (st en j je : Nat)
    (hlast : (findIter sp.1 text.toList).getLast? = some (st, en))
    (hend : reSearch sp.2.2 (text.toList.drop st) = some (j, je)) :
    List.lookup sp.2.1 (extract_sections text) =
      some (pyStrip ((text.toList.drop st).take j)) := by
  rw [extract_sections, lookup_extractGo_mem hsp (by decide)]
  unfold sectionResult sectionSpan
  simp only [hlast, hend, Option.map_some']
  rw [show st + j - st = j by omega]

/-- Witness for C1: a text whose Business heading occurs once and is
followed by an Item 1A heading. -/
theorem C1_witness :
    (busStart, "Business", busEnd) ∈ patterns ∧
    (findIter busStart "item 1. business item 1a. risk".toList).getLast? = some (0, 16) ∧
    reSearch busEnd ("item 1. business item 1a. risk".toList.drop 0) = some (17, 24) ∧
    List.lookup "Business" (extract_sections "item 1. business item 1a. risk") =
      some (pyStrip (("item 1. business item 1a. risk".toList.drop 0).take 17)) :=
  ⟨by decide, by decide, by decide,
    C1_extract_last_start_first_end "item 1. business item 1a. risk"
      (busStart, "Business", busEnd) (by decide) 0 16 17 24 (by decide) (by decide)⟩

/-- C2: for every input text in which a section's start pattern has no
occurrence, the section's canonical name is absent from the result of
`extract_sections` (not present with an empty value), and every section's
entry is its own independent `sectionResult`, so the remaining sections are
unaffected. -/
theorem C2_missing_start_pattern_absent (text : String)
    (sp : Regex × String × Regex) (hsp : sp ∈ patterns)
    (hnone : findIter sp.1 text.toList = []) :
    List.lookup sp.2.1 (extract_sections text) = none ∧
    ∀ sp' ∈ patterns, List.lookup sp'.2.1 (extract_sections text) =
      sectionResult sp'.1 sp'.2.2 text.toList := by
  constructor
  · rw [extract_sections, lookup_extractGo_mem hsp (by decide)]
    unfold sectionResult sectionSpan
    rw [hnone]
    rfl
  · intro sp' hsp'
    rw [extract_sections, lookup_extractGo_mem hsp' (by decide)]

/-- Witness for C2: a text with no Business heading at all. -/
theorem C2_witness :
    (busStart, "Business", busEnd) ∈ patterns ∧
    findIter busStart "hello".toList = [] ∧
    List.lookup "Business" (extract_sections "hello") = none :=
  ⟨by decide, by decide,
    (C2_missing_start_pattern_absent "hello" (busStart, "Business", busEnd)
      (by decide) (by decide)).1⟩

/-- C3: for every input text in which a section's start pattern occurs but
its end pattern has no occurrence at or after the last start occurrence, the
extracted section is the whitespace-trimmed substring from the last start
occurrence to the end of the document. -/
theorem C3_no_end_extends_to_document_end (text : String)
    (sp : Regex × String × Regex) (hsp : sp ∈ patterns)
    (st en : Nat)
    (hlast : (findIter sp.1 text.toList).getLast? = some (st, en))
    (hend : reSearch sp.2.2 (text.toList.drop st) = none) :
    List.lookup sp.2.1 (extract_sections text) =
      some (pyStrip (text.toList.drop st)) := by
  rw [extract_sections, lookup_extractGo_mem hsp (by decide)]
  unfold sectionResult sectionSpan
  simp only [hlast, hend, Option.map_some']
  rw [show text.toList.length - st = (text.toList.drop st).length from
    (List.length_drop st text.toList).symm, List.take_length]

/-- Witness for C3: a Business heading with no later Item 1A heading. -/
theorem C3_witness :
    (busStart, "Business", busEnd) ∈ patterns ∧
    (findIter busStart "intro item 1. business more text".toList).getLast? = some (6, 22) ∧
    reSearch busEnd ("intro item 1. business more text".toList.drop 6) = none ∧
    List.lookup "Business" (extract_sections "intro item 1. business more text") =
      some (pyStrip ("intro item 1. business more text".toList.drop 6)) :=
  ⟨by decide, by decide, by decide,
    C3_no_end_extends_to_document_end "intro item 1. business more text"
      (busStart, "Business", busEnd) (by decide) 6 22 (by decide) (by decide)⟩

/-- An input on which two extracted sections overlap: the Risk Factors body
is listed before the Business body, so the Risk Factors span runs to the end
of the document, across the whole Business span. -/
def overlapText : String := "item 1a. risk factors item 1. business"

/-- C4 counterexample: on `overlapText` both Business and Risk Factors are
present in the result of `extract_sections`, their extraction spans are
(22, 38) and (0, 38), and those spans are not disjoint, refuting the claim
that no two entries of the mapping overlap. -/
theorem C4_counterexample :
    (List.lookup "Business" (extract_sections overlapText)).isSome = true ∧
    (List.lookup "Risk Factors" (extract_sections overlapText)).isSome = true ∧
    sectionSpan busStart busEnd overlapText.toList = some (22, 38) ∧
    sectionSpan riskStart riskEnd overlapText.toList = some (0, 38) ∧
    ¬ (38 ≤ 0 ∨ 38 ≤ 22) := by decide

/-- C4 amended: the entries of `extract_sections` need not be disjoint.
What the construction does guarantee is that each section is extracted
independently: the entry under a pattern's canonical name is exactly that
pattern's own `sectionResult`, untouched by the other sections. -/
theorem C4_amended_independent_extraction (text : String)
    (sp : Regex × String × Regex) (hsp : sp ∈ patterns) :
    List.lookup sp.2.1 (extract_sections text) =
      sectionResult sp.1 sp.2.2 text.toList := by
  rw [extract_sections]
  exact lookup_extractGo_mem hsp (by decide)

/-- Witness for the amended C4 at a concrete pattern and text. -/
theorem C4_amended_witness :
    (finStart, "Financial Statements", finEnd) ∈ patterns ∧
    List.lookup "Financial Statements" (extract_sections "abc") =
      sectionResult finStart finEnd "abc".toList :=
  ⟨by decide,
    C4_amended_independent_extraction "abc" (finStart, "Financial Statements", finEnd)
      (by decide)⟩

/-- The truncation note is never empty. -/
theorem truncMarker_length_pos (n : Nat) : 0 < (truncMarker n).length := by
  have h : truncMarker n =
      '\n' :: ("\n[Text truncated - original length: ".toList ++ (Nat.repr n).toList ++
        " characters]".toList) := rfl
  rw [h]
  simp

/-- An input one character beyond the truncation limit. -/
def longInput : List Char := List.replicate 100001 'a'

/-- C5 counterexample: the truncation step is not idempotent beyond the
limit.  Truncating `longInput` (100001 characters) yields a text of length
100055, which a second truncation cuts and re-marks with a different
original length, so the two results differ. -/
theorem C5_counterexample :
    truncateSection (truncateSection longInput) ≠ truncateSection longInput := by
  have hm : (truncMarker 100001).length = 55 := by decide
  have h1 : truncateSection longInput =
      List.replicate 100000 'a' ++ truncMarker 100001 := by
    unfold truncateSection longInput MAX_TEXT_LENGTH
    rw [List.length_replicate, if_pos (by norm_num), List.take_replicate]
    norm_num
  have hlen : (List.replicate 100000 'a' ++ truncMarker 100001).length = 100055 := by
    rw [List.length_append, List.length_replicate, hm]
  have h2 : truncateSection (truncateSection longInput) =
      List.replicate 100000 'a' ++ truncMarker 100055 := by
    rw [h1]
    unfold truncateSection MAX_TEXT_LENGTH
    rw [hlen, if_pos (by norm_num), List.take_left' (by rw [List.length_replicate])]
  rw [h2, h1]
  intro heq
  have hmm := List.append_cancel_left heq
  exact absurd hmm (by decide)

/-- C5 amended: the truncation step is the identity on every text of length
at most the 100000-character limit (so it is idempotent on such texts, but
not beyond the limit), and its output is the truncated text with the
appended marker stating the original length exactly when the input's length
strictly exceeds the limit. -/
theorem C5_amended_truncation (s : List Char) :
    (s.length ≤ MAX_TEXT_LENGTH → truncateSection s = s) ∧
    (truncateSection s = s.take MAX_TEXT_LENGTH ++ truncMarker s.length ↔
      MAX_TEXT_LENGTH < s.length) := by
  constructor
  · intro h
    unfold truncateSection
    rw [if_neg (by omega), List.take_of_length_le h]
  · constructor
    · intro heq
      by_contra hgt
      have hle : s.length ≤ MAX_TEXT_LENGTH := by omega
      unfold truncateSection at heq
      rw [if_neg (by omega), List.take_of_length_le hle] at heq
      have hcontra := congrArg List.length heq
      rw [List.length_append] at hcontra
      have := truncMarker_length_pos s.length
      omega
    · intro h
      unfold truncateSection
      rw [if_pos h]

/-- Witness for the amended C5 at a short text. -/
theorem C5_witness :
    "abc".toList.length ≤ MAX_TEXT_LENGTH ∧ truncateSection "abc".toList = "abc".toList :=
  ⟨by decide, (C5_amended_truncation "abc".toList).1 (by decide)⟩

/-- Joining exactly two parts with the blank-line separator. -/
theorem intercalate_pair (a b : List Char) :
    List.intercalate ['\n', '\n'] [a, b] = a ++ '\n' :: '\n' :: b := by
  simp [List.intercalate, List.intersperse]

/-- C6: when the normalized sections map "business" to "B", "risk factors"
to "R" and "management's discussion and analysis" to "M", the synthesized
combined text is exactly
`"Business\n\nB\n\nRisk Factors\n\nR\n\nManagement'S Discussion And Analysis\n\nM"`
(title-cased headers, parts joined by a blank line, in the fixed order), and
a section absent from the sections map is simply omitted from the join, as
shown for an absent "business" with arbitrary risk and MD&A texts. -/
theorem C6_combined_synthesis (ns : List (String × List Char)) :
    (List.lookup "business" ns = some "B".toList →
     List.lookup "risk factors" ns = some "R".toList →
     List.lookup "management's discussion and analysis" ns = some "M".toList →
     combined_text ns = some
       "Business\n\nB\n\nRisk Factors\n\nR\n\nManagement'S Discussion And Analysis\n\nM".toList) ∧
    (∀ R M : List Char,
     List.lookup "business" ns = none →
     List.lookup "risk factors" ns = some R →
     List.lookup "management's discussion and analysis" ns = some M →
     combined_text ns = some
       (("Risk Factors".toList ++ '\n' :: '\n' :: R) ++
         '\n' :: '\n' :: ("Management'S Discussion And Analysis".toList ++ '\n' :: '\n' :: M))) := by
  constructor
  · intro h1 h2 h3
    unfold combined_text combined_parts combined_order
    simp only [List.filterMap_cons, List.filterMap_nil, h1, h2, h3, Option.map_some']
    decide
  · intro R M h1 h2 h3
    unfold combined_text combined_parts combined_order
    simp only [List.filterMap_cons, List.filterMap_nil, h1, h2, h3, Option.map_some',
      Option.map_none']
    rw [show pyTitle "risk factors".toList = "Risk Factors".toList from by decide,
      show pyTitle "management's discussion and analysis".toList =
        "Management'S Discussion And Analysis".toList from by decide]
    rw [intercalate_pair]

/-- The concrete sections map of the C6 scenario. -/
def combinedNS : List (String × List Char) :=
  [("business", "B".toList), ("risk factors", "R".toList),
   ("management's discussion and analysis", "M".toList)]

/-- Witness for C6 on the concrete three-section map. -/
theorem C6_witness :
    List.lookup "business" combinedNS = some "B".toList ∧
    List.lookup "risk factors" combinedNS = some "R".toList ∧
    List.lookup "management's discussion and analysis" combinedNS = some "M".toList ∧
    combined_text combinedNS = some
      "Business\n\nB\n\nRisk Factors\n\nR\n\nManagement'S Discussion And Analysis\n\nM".toList :=
  ⟨by decide, by decide, by decide,
    (C6_combined_synthesis combinedNS).1 (by decide) (by decide) (by decide)⟩

/-- Characterization of the locator loop: a returned index points at the
first `"10-K"` entry at or after the accumulator. -/
theorem firstFormIdx_spec {l : List String} {k i : Nat}
    (h : firstFormIdx l k = some i) :
    k ≤ i ∧ l.get? (i - k) = some "10-K" ∧
      ∀ j b, j < i - k → l.get? j = some b → b ≠ "10-K" := by
  induction l generalizing k with
  | nil => simp [firstFormIdx] at h
  | cons f rest ih =>
    simp only [firstFormIdx] at h
    by_cases hf : f = "10-K"
    · rw [if_pos hf] at h
      injection h with h
      subst h
      refine ⟨Nat.le_refl _, ?_, ?_⟩
      · rw [Nat.sub_self, hf]
        rfl
      · intro j b hj
        exact absurd hj (by omega)
    · rw [if_neg hf] at h
      obtain ⟨h1, h2, h3⟩ := ih h
      refine ⟨by omega, ?_, ?_⟩
      · rw [show i - k = (i - (k + 1)) + 1 by omega]
        simpa using h2
      · intro j b hj hb
        cases j with
        | zero =>
          simp at hb
          subst hb
          exact hf
        | succ j' =>
          refine h3 j' b (by omega) ?_
          simpa using hb

/-- C7: given the fetched parallel arrays, the Filing Locator returns the
URL built from the first array index whose form type equals `"10-K"` --
concatenating the numeric filer identifier, the accession number with its
dash separators stripped, and the primary document name -- and returns a
"not found" result when no index matches. -/
theorem C7_filing_locator (cik : String) (n : Nat) (form accs docs : List String)
    (hn : pyInt? cik = some n) :
    (∀ i acc doc, firstFormIdx form 0 = some i →
      accs.get? i = some acc → docs.get? i = some doc →
      form.get? i = some "10-K" ∧
      (∀ j b, j < i → form.get? j = some b → b ≠ "10-K") ∧
      get_latest_10k_url cik form accs docs =
        some ("https://www.sec.gov/Archives/edgar/data/" ++ Nat.repr n ++ "/" ++
          String.mk (acc.toList.filter (fun c => c ≠ '-')) ++ "/" ++ doc)) ∧
    (firstFormIdx form 0 = none → get_latest_10k_url cik form accs docs = none) := by
  constructor
  · intro i acc doc hfi hacc hdoc
    obtain ⟨-, h2, h3⟩ := firstFormIdx_spec hfi
    rw [Nat.sub_zero] at h2
    refine ⟨h2, ?_, ?_⟩
    · intro j b hj hb
      exact h3 j b (by omega) hb
    · unfold get_latest_10k_url
      simp only [hfi, hn, hacc, hdoc]
  · intro hfi
    unfold get_latest_10k_url
    simp only [hfi]

/-- Witness for C7 on concrete parallel arrays with the 10-K at index 1. -/
theorem C7_witness :
    pyInt? "0000320193" = some 320193 ∧
    firstFormIdx ["10-Q", "10-K"] 0 = some 1 ∧
    ["a-b-c", "0000320193-24-000123"].get? 1 = some "0000320193-24-000123" ∧
    ["x", "aapl-20240928.htm"].get? 1 = some "aapl-20240928.htm" ∧
    get_latest_10k_url "0000320193" ["10-Q", "10-K"]
        ["a-b-c", "0000320193-24-000123"] ["x", "aapl-20240928.htm"] =
      some ("https://www.sec.gov/Archives/edgar/data/" ++ Nat.repr 320193 ++ "/" ++
        String.mk ("0000320193-24-000123".toList.filter (fun c => c ≠ '-')) ++ "/" ++
        "aapl-20240928.htm") :=
  ⟨by decide, by decide, by decide, by decide,
    ((C7_filing_locator "0000320193" 320193 ["10-Q", "10-K"]
        ["a-b-c", "0000320193-24-000123"] ["x", "aapl-20240928.htm"] (by decide)).1
      1 "0000320193-24-000123" "aapl-20240928.htm"
      (by decide) (by decide) (by decide)).2.2⟩

/-- C8: when the Identifier Resolver reports a ticker as not found, the
route answers HTTP 404 with body `{"error": "Ticker not found"}` and no
downstream stage (filing lookup, document fetch, extraction, oracle call)
is invoked: the trace contains only the resolver stage. -/
theorem C8_unknown_ticker_404 (get_cik get_latest fetch_10k : String → Option String)
    (gemini : String → List Char → Option String) (ticker sectionName : String)
    (h : get_cik ticker = none) :
    analyze_10k get_cik get_latest fetch_10k gemini ticker sectionName =
      ((404, Body.error "Ticker not found"), [Stage.cik]) := by
  unfold analyze_10k
  rw [h]
  rfl

/-- A resolver stub that knows no ticker. -/
def stubNone : String → Option String := fun _ => none

/-- An oracle stub. -/
def stubGem : String → List Char → Option String := fun _ _ => none

/-- Witness for C8 with stub stages. -/
theorem C8_witness :
    stubNone "ZZZZ" = none ∧
    analyze_10k stubNone stubNone stubNone stubGem "ZZZZ" "business" =
      ((404, Body.error "Ticker not found"), [Stage.cik]) :=
  ⟨rfl, C8_unknown_ticker_404 stubNone stubNone stubNone stubGem "ZZZZ" "business" rfl⟩

/-- C9: every key of the mapping returned by `extract_sections` is one of
the five canonical section names, and every value is the whitespace-trimmed
contiguous substring of the input whose span starts at an offset where the
section's own start pattern matches and ends inside the document. -/
theorem C9_keys_and_values_invariant (text : String) (k : String) (v : List Char)
    (h : (k, v) ∈ extract_sections text) :
    k ∈ ["Business", "Risk Factors", "Management's Discussion and Analysis",
      "Quantitative and Qualitative Disclosures", "Financial Statements"] ∧
    ∃ sp, sp ∈ patterns ∧ sp.2.1 = k ∧
      ∃ s e n, s ≤ e ∧ e ≤ text.toList.length ∧
        matchAlt sp.1 (text.toList.drop s) = some n ∧
        v = pyStrip ((text.toList.drop s).take (e - s)) := by
  obtain ⟨sp, hmem, hname, hres⟩ := mem_extractGo h
  constructor
  · rw [← hname]
    have hk : sp.2.1 ∈ patterns.map (fun x => x.2.1) :=
      List.mem_map_of_mem (fun x => x.2.1) hmem
    rw [show patterns.map (fun x => x.2.1) =
      ["Business", "Risk Factors", "Management's Discussion and Analysis",
        "Quantitative and Qualitative Disclosures", "Financial Statements"] from rfl] at hk
    exact hk
  · refine ⟨sp, hmem, hname, ?_⟩
    unfold sectionResult at hres
    cases hspan : sectionSpan sp.1 sp.2.2 text.toList with
    | none => rw [hspan] at hres; exact absurd hres (by simp)
    | some se =>
      rw [hspan] at hres
      simp only [Option.map_some', Option.some.injEq] at hres
      obtain ⟨st, en⟩ := se
      unfold sectionSpan at hspan
      cases hlast : (findIter sp.1 text.toList).getLast? with
      | none => rw [hlast] at hspan; exact absurd hspan (by simp)
      | some m =>
        rw [hlast] at hspan
        obtain ⟨j0, je0⟩ := m
        have hmm : (j0, je0) ∈ findIter sp.1 text.toList :=
          List.mem_of_getLast?_eq_some hlast
        obtain ⟨hj0, hmatch⟩ := findIterAux_mem hmm
        simp only [Option.some.injEq, Prod.mk.injEq] at hspan
        obtain ⟨hst, hen⟩ := hspan
        subst hst
        refine ⟨j0, en, je0 - j0, ?_, ?_, hmatch, hres.symm⟩
        · cases hsr : reSearch sp.2.2 (text.toList.drop j0) with
          | none => simp only [hsr] at hen; omega
          | some em =>
            simp only [hsr] at hen
            omega
        · cases hsr : reSearch sp.2.2 (text.toList.drop j0) with
          | none => simp only [hsr] at hen; omega
          | some em =>
            obtain ⟨ems, eme⟩ := em
            simp only [hsr] at hen
            obtain ⟨-, hb2, -⟩ := searchFrom_some (by exact hsr) (by simp)
            rw [List.length_drop] at hb2
            omega

/-- Witness for C9 at a concrete extracted entry. -/
theorem C9_witness :
    ("Financial Statements", "item 8. financial stuff".toList) ∈
      extract_sections "item 8. financial stuff" ∧
    "Financial Statements" ∈
      ["Business", "Risk Factors", "Management's Discussion and Analysis",
        "Quantitative and Qualitative Disclosures", "Financial Statements"] :=
  ⟨by decide,
    (C9_keys_and_values_invariant "item 8. financial stuff" "Financial Statements"
      "item 8. financial stuff".toList (by decide)).1⟩

/-- A nonempty string passes the `if not x:` truthiness check. -/
theorem truthy_some_of_ne {s : String} (h : s ≠ "") : truthy (some s) = some s := by
  simp [truthy, h]

/-- C10: when none of Business, Risk Factors and MD&A is present in the
extraction result, no combined section is synthesized, and a request for
section "combined" answers HTTP 404 with the section-not-found error, with
no oracle stage invoked. -/
theorem C10_combined_absent_404 (get_cik get_latest fetch_10k : String → Option String)
    (gemini : String → List Char → Option String) (ticker cik url text : String)
    (h1 : get_cik ticker = some cik) (h2 : cik ≠ "")
    (h3 : get_latest cik = some url) (h4 : url ≠ "")
    (h5 : fetch_10k url = some text) (h6 : text ≠ "")
    (hb : List.lookup "Business" (extract_sections text) = none)
    (hr : List.lookup "Risk Factors" (extract_sections text) = none)
    (hm : List.lookup "Management's Discussion and Analysis" (extract_sections text) = none) :
    analyze_10k get_cik get_latest fetch_10k gemini ticker "combined" =
      ((404, Body.error "Section combined not found"),
        [Stage.cik, Stage.url, Stage.fetch]) := by
  have hres_b : sectionResult busStart busEnd text.toList = none := by
    rw [← lookup_extractGo_mem
      (show (busStart, "Business", busEnd) ∈ patterns from by decide) (by decide)]
    exact hb
  have hres_r : sectionResult riskStart riskEnd text.toList = none := by
    rw [← lookup_extractGo_mem
      (show (riskStart, "Risk Factors", riskEnd) ∈ patterns from by decide) (by decide)]
    exact hr
  have hres_m : sectionResult mdaStart mdaEnd text.toList = none := by
    rw [← lookup_extractGo_mem
      (show (mdaStart, "Management's Discussion and Analysis", mdaEnd) ∈ patterns from
        by decide) (by decide)]
    exact hm
  have hmap : (extract_sections text).map (fun p => (pyLower p.1, p.2)) =
      extractGo patternsLower text.toList := by
    rw [extract_sections, map_lower_extractGo]
    rfl
  have hlow_b : List.lookup "business" (extractGo patternsLower text.toList) = none := by
    have hx := lookup_extractGo_mem
      (show (busStart, "business", busEnd) ∈ patternsLower from by decide)
      (show (patternsLower.map (fun x => x.2.1)).Nodup from by decide)
      (t := text.toList)
    exact hx.trans hres_b
  have hlow_r : List.lookup "risk factors" (extractGo patternsLower text.toList) = none := by
    have hx := lookup_extractGo_mem
      (show (riskStart, "risk factors", riskEnd) ∈ patternsLower from by decide)
      (show (patternsLower.map (fun x => x.2.1)).Nodup from by decide)
      (t := text.toList)
    exact hx.trans hres_r
  have hlow_m : List.lookup "management's discussion and analysis"
      (extractGo patternsLower text.toList) = none := by
    have hx := lookup_extractGo_mem
      (show (mdaStart, "management's discussion and analysis", mdaEnd) ∈ patternsLower from
        by decide)
      (show (patternsLower.map (fun x => x.2.1)).Nodup from by decide)
      (t := text.toList)
    exact hx.trans hres_m
  have hct : combined_text (extractGo patternsLower text.toList) = none := by
    unfold combined_text combined_parts combined_order
    simp only [List.filterMap_cons, List.filterMap_nil, hlow_b, hlow_r, hlow_m,
      Option.map_none']
  have hcl : List.lookup "combined" (extractGo patternsLower text.toList) = none :=
    lookup_extractGo_absent (by decide)
  unfold analyze_10k
  simp only [h1, truthy_some_of_ne h2, h3, truthy_some_of_ne h4, h5, truthy_some_of_ne h6]
  simp only [hmap, hct]
  rw [show pyLower "combined" = "combined" from by decide]
  simp only [hcl]
  rfl

/-- A resolver stub returning a fixed filer identifier. -/
def stubCikOK : String → Option String := fun _ => some "0000320193"

/-- A locator stub returning a fixed filing URL. -/
def stubUrlOK : String → Option String := fun _ => some "http://sec.example/10k.htm"

/-- A fetcher stub returning a text with no section headings. -/
def stubFetchPlain : String → Option String := fun _ => some "hello world"

/-- An oracle stub that always answers. -/
def stubGemOK : String → List Char → Option String := fun _ _ => some "ok"

/-- Witness for C10 with stub stages over a heading-free document. -/
theorem C10_witness :
    stubCikOK "AAPL" = some "0000320193" ∧ "0000320193" ≠ "" ∧
    stubUrlOK "0000320193" = some "http://sec.example/10k.htm" ∧
    "http://sec.example/10k.htm" ≠ "" ∧
    stubFetchPlain "http://sec.example/10k.htm" = some "hello world" ∧ "hello world" ≠ "" ∧
    List.lookup "Business" (extract_sections "hello world") = none ∧
    List.lookup "Risk Factors" (extract_sections "hello world") = none ∧
    List.lookup "Management's Discussion and Analysis" (extract_sections "hello world") = none ∧
    analyze_10k stubCikOK stubUrlOK stubFetchPlain stubGemOK "AAPL" "combined" =
      ((404, Body.error "Section combined not found"),
        [Stage.cik, Stage.url, Stage.fetch]) :=
  ⟨rfl, by decide, rfl, by decide, rfl, by decide, by decide, by decide, by decide,
    C10_combined_absent_404 stubCikOK stubUrlOK stubFetchPlain stubGemOK
      "AAPL" "0000320193" "http://sec.example/10k.htm" "hello world"
      rfl (by decide) rfl (by decide) rfl (by decide)
      (by decide) (by decide) (by decide)⟩
